import Mathlib

/-!
Shallow embedding of the budget-planner data layer (`lib/db.js`): the
category and transaction stores backed by Supabase/PostgreSQL, and the
aggregation functions `getMonthlySummary`, `getYearlySummary`,
`getBudgetStatus`, plus `getTransactions` and `deleteCategory`.

Amounts and budget limits are decimal currency values; we model them as
rationals (`ℚ`).  Dates are `DATE` columns compared by the database in
calendar order, modelled as year/month/day triples under lexicographic
order.  Database queries (`.eq`, `.gte`, `.lt`, `.order`, `.limit`) become
list filtering, sorting and truncation over the full table contents.
-/

namespace BudgetApp

/-- A calendar date (`DATE` column): year, month, day. -/
structure Date where
  y : Nat
  m : Nat
  d : Nat
deriving DecidableEq, Repr

/-- Strict calendar order on dates (lexicographic on year, month, day),
as PostgreSQL compares `DATE` values. -/
def dateLtB (a b : Date) : Bool :=
  a.y < b.y || (a.y == b.y && (a.m < b.m || (a.m == b.m && a.d < b.d)))

/-- Non-strict calendar order on dates. -/
def dateLeB (a b : Date) : Bool :=
  a.y < b.y || (a.y == b.y && (a.m < b.m || (a.m == b.m && a.d ≤ b.d)))

/-- JS `Math.max` on two decimal values. -/
def mathMax (a b : ℚ) : ℚ := if a ≤ b then b else a

/-- JS `Math.min` on two decimal values. -/
def mathMin (a b : ℚ) : ℚ := if a ≤ b then a else b

/-- A row of the `categories` table, as normalized by the JS layer
(`budget_limit` is a decimal, parsed with `parseFloat(...) || 0`). -/
structure Category where
  id : String
  name : String
  type : String
  budget_limit : ℚ
  color : String
deriving DecidableEq, Repr

/-- A row of the `transactions` table, as normalized by the JS layer. -/
structure Transaction where
  id : String
  type : String
  amount : ℚ
  category_id : String
  date : Date
deriving DecidableEq, Repr

/-- JS string fallback `s || fallback`: the empty string is the only falsy
string. -/
def strOr (s fallback : String) : String :=
  if s = "" then fallback else s

/-- `startDate` of the query range in `getMonthlySummary` /
`getYearlySummary` / `getBudgetStatus` / `getTransactions`:
`` `${year}-${month}-01` ``. -/
def periodStartDate (month year : Nat) : Date := ⟨year, month, 1⟩

/-- `endDate` of the query range: first of the next month, rolling over to
January of `year + 1` when `month === 12`. -/
def periodEndDate (month year : Nat) : Date :=
  if month == 12 then ⟨year + 1, 1, 1⟩ else ⟨year, month + 1, 1⟩

/-- The database filter `.gte('date', startDate).lt('date', endDate)`:
`date` lies in the half-open Period `[first-of-month, first-of-next-month)`. -/
def inPeriod (month year : Nat) (dt : Date) : Bool :=
  dateLeB (periodStartDate month year) dt && dateLtB dt (periodEndDate month year)

/-- One step of the JS accumulation object pattern
`if (!m[k]) m[k] = 0; m[k] += v`: add `v` to the entry for key `k`,
appending a fresh entry when the key is absent (JS objects keep string keys
in insertion order). -/
def addToGroup (acc : List (String × ℚ)) (k : String) (v : ℚ) : List (String × ℚ) :=
  match acc with
  | [] => [(k, v)]
  | (j, w) :: rest =>
      if j = k then (k, w + v) :: rest else (j, w) :: addToGroup rest k v

/-- The `catMap` lookup `catMap[catId]` where `catMap` was filled by
`categories.forEach(cat => { catMap[cat.id] = cat })` — the last assignment
to an id wins. -/
def catLookup (cats : List Category) (cid : String) : Option Category :=
  (cats.filter (fun c => c.id == cid)).getLast?

/-- One iteration of the `transactions.forEach` loop shared by
`getMonthlySummary` and `getYearlySummary`: route the amount into the
income / investment / expenses accumulator by `tx.type`, with everything
that is neither `income` nor `investment` falling through to expenses. -/
def partitionStep (acc : ℚ × ℚ × ℚ) (tx : Transaction) : ℚ × ℚ × ℚ :=
  if tx.type == "income" then (acc.1 + tx.amount, acc.2.1, acc.2.2)
  else if tx.type == "investment" then (acc.1, acc.2.1, acc.2.2 + tx.amount)
  else (acc.1, acc.2.1 + tx.amount, acc.2.2)

/-- The full body of the `transactions.forEach` loop in `getMonthlySummary`:
partition totals together with the `categoryTotals` grouping object. -/
def monthlyStep (acc : (ℚ × ℚ × ℚ) × List (String × ℚ)) (tx : Transaction) :
    (ℚ × ℚ × ℚ) × List (String × ℚ) :=
  (partitionStep acc.1 tx, addToGroup acc.2 tx.category_id tx.amount)

/-- One entry of `category_breakdown` in `getMonthlySummary`. -/
structure BreakdownEntry where
  category_id : String
  category_name : String
  type : String
  total : ℚ
  budget_limit : ℚ
  color : String
deriving DecidableEq, Repr

/-- The result shape of `getMonthlySummary`. -/
structure MonthlySummary where
  month : Nat
  year : Nat
  total_income : ℚ
  total_expenses : ℚ
  total_investments : ℚ
  balance : ℚ
  category_breakdown : List BreakdownEntry
deriving DecidableEq, Repr

/-- Building one `category_breakdown` entry from a `(catId, total)` pair:
`const cat = catMap[catId] || {}` followed by per-field JS `||` fallbacks
(`cat.name || 'Unknown'`, `cat.type || 'expense'`,
`parseFloat(cat.budget_limit) || 0`, `cat.color || '#3D405B'`). -/
def mkBreakdownEntry (cats : List Category) (p : String × ℚ) : BreakdownEntry :=
  match catLookup cats p.1 with
  | some cat =>
      { category_id := p.1
        category_name := strOr cat.name "Unknown"
        type := strOr cat.type "expense"
        total := p.2
        budget_limit := cat.budget_limit
        color := strOr cat.color "#3D405B" }
  | none =>
      { category_id := p.1
        category_name := "Unknown"
        type := "expense"
        total := p.2
        budget_limit := 0
        color := "#3D405B" }

/-- `getMonthlySummary(month, year)` over database snapshots `txns`
(the `transactions` table) and `cats` (the `categories` table). -/
def getMonthlySummary (txns : List Transaction) (cats : List Category)
    (month year : Nat) : MonthlySummary :=
  let filtered := txns.filter (fun tx => inPeriod month year tx.date)
  let acc := filtered.foldl monthlyStep ((0, 0, 0), [])
  { month := month
    year := year
    total_income := acc.1.1
    total_expenses := acc.1.2.1
    total_investments := acc.1.2.2
    balance := acc.1.1 - acc.1.2.1
    category_breakdown := acc.2.map (mkBreakdownEntry cats) }

/-- One entry of `monthly_data` in `getYearlySummary`. -/
structure MonthData where
  month : Nat
  income : ℚ
  expenses : ℚ
  investments : ℚ
  balance : ℚ
deriving DecidableEq, Repr

/-- The result shape of `getYearlySummary`. -/
structure YearlySummary where
  year : Nat
  monthly_data : List MonthData
  total_income : ℚ
  total_expenses : ℚ
  total_investments : ℚ
deriving DecidableEq, Repr

/-- One iteration of the `for (let month = 1; month <= 12; month++)` loop in
`getYearlySummary`: fetch the month's transactions and partition them. -/
def monthData (txns : List Transaction) (year month : Nat) : MonthData :=
  let p := (txns.filter (fun tx => inPeriod month year tx.date)).foldl partitionStep (0, 0, 0)
  { month := month
    income := p.1
    expenses := p.2.1
    investments := p.2.2
    balance := p.1 - p.2.1 }

/-- `getYearlySummary(year)` over the `transactions` table snapshot. -/
def getYearlySummary (txns : List Transaction) (year : Nat) : YearlySummary :=
  let monthlyData := (List.range 12).map (fun i => monthData txns year (i + 1))
  { year := year
    monthly_data := monthlyData
    total_income := monthlyData.foldl (fun sum m => sum + m.income) 0
    total_expenses := monthlyData.foldl (fun sum m => sum + m.expenses) 0
    total_investments := monthlyData.foldl (fun sum m => sum + m.investments) 0 }

/-- One entry of the result of `getBudgetStatus`. -/
structure BudgetStatusEntry where
  category_id : String
  category_name : String
  budget_limit : ℚ
  spent : ℚ
  remaining : ℚ
  percentage : ℚ
  over_budget : Bool
  color : String
deriving DecidableEq, Repr

/-- `getBudgetStatus(month, year)` over database snapshots: expense
categories (`.eq('type','expense')`), period expense transactions
(`.eq('type','expense').gte('date',start).lt('date',end)`), a `spendingMap`
grouping object, then one entry per expense category. -/
def getBudgetStatus (txns : List Transaction) (cats : List Category)
    (month year : Nat) : List BudgetStatusEntry :=
  let categories := cats.filter (fun c => c.type == "expense")
  let transactions := txns.filter
    (fun tx => tx.type == "expense" && inPeriod month year tx.date)
  let spendingMap := transactions.foldl
    (fun acc tx => addToGroup acc tx.category_id tx.amount) []
  categories.map (fun cat =>
    let spent := (List.lookup cat.id spendingMap).getD 0
    let budgetLimit := cat.budget_limit
    let percentage := if 0 < budgetLimit then spent / budgetLimit * 100 else 0
    { category_id := cat.id
      category_name := cat.name
      budget_limit := budgetLimit
      spent := spent
      remaining := mathMax 0 (budgetLimit - spent)
      percentage := mathMin percentage 100
      over_budget := decide (0 < budgetLimit) && decide (budgetLimit < spent)
      color := cat.color })

/-- The filter object accepted by `getTransactions({ month, year, type,
category_id })`; `none` models an absent (or otherwise falsy) field. -/
structure TxFilter where
  month : Option Nat
  year : Option Nat
  type : Option String
  category_id : Option String
deriving DecidableEq, Repr

/-- The conjunction of the query conditions `getTransactions` attaches:
the `[start, end)` date range only when BOTH `month` and `year` are
supplied (`if (month && year)`), plus the optional `type` and
`category_id` equality filters. -/
def matchesFilter (f : TxFilter) (tx : Transaction) : Bool :=
  (match f.month, f.year with
   | some m, some y => inPeriod m y tx.date
   | _, _ => true)
  && (match f.type with
      | some t => tx.type == t
      | none => true)
  && (match f.category_id with
      | some c => tx.category_id == c
      | none => true)

/-- `.order('date', { ascending: false })`: sort by date descending. -/
def sortByDateDesc (txns : List Transaction) : List Transaction :=
  txns.mergeSort (fun a b => dateLeB b.date a.date)

/-- `getTransactions(filter)` over the `transactions` table snapshot:
SQL applies the `WHERE` conditions, then `ORDER BY date DESC`, then
`LIMIT 1000`. -/
def getTransactions (db : List Transaction) (f : TxFilter) : List Transaction :=
  (sortByDateDesc (db.filter (matchesFilter f))).take 1000

/-- The two tables a store operation can touch. -/
structure DB where
  categories : List Category
  transactions : List Transaction
deriving DecidableEq, Repr

/-- The dependent count `deleteCategory` asks the database for:
`select('*', { count: 'exact', head: true }).eq('category_id', id)`. -/
def dependentCount (db : DB) (id : String) : Nat :=
  (db.transactions.filter (fun tx => tx.category_id == id)).length

/-- The error message thrown by `deleteCategory`. -/
def hasDependentsMsg : String := "Cannot delete category with existing transactions"

/-- The body of `deleteCategory(id)` given the destructured `count` of the
dependent-count response; `none` models a failed query or a response with
no count (JS `count` being `null`/`undefined`, for which `count > 0` is
false).  The result pairs the resulting database state with the raised
error, if any; a throw leaves the state untouched. -/
def deleteCategoryCore (countResult : Option Nat) (db : DB) (id : String) :
    DB × Option String :=
  let guardFires := match countResult with
    | some c => decide (0 < c)
    | none => false
  if guardFires then
    (db, some hasDependentsMsg)
  else
    ({ db with categories := db.categories.filter (fun c => !(c.id == id)) }, none)

/-- `deleteCategory(id)`: the count query returns the exact number of
transactions referencing `id`, then the guarded delete runs. -/
def deleteCategory (db : DB) (id : String) : DB × Option String :=
  deleteCategoryCore (some (dependentCount db id)) db id

/-- Sum of the amounts of a list of transactions (used to state which
transactions a computed total accounts for). -/
def sumAmounts (l : List Transaction) : ℚ :=
  (l.map (fun tx => tx.amount)).sum

/-- Sum of the `spent` fields over budget-status entries. -/
def sumSpent (l : List BudgetStatusEntry) : ℚ :=
  (l.map (fun e => e.spent)).sum

/-! ### Concrete sample data -/

/-- An expense category with a budget limit of 100. -/
def exCat : Category := ⟨"c1", "Groceries", "expense", 100, "#E07A5F"⟩

/-- A June-2025 transaction of the expense category `"c1"` whose type is
none of `income`, `investment`, `expense`. -/
def exTxOther : Transaction := ⟨"t9", "transfer", 50, "c1", ⟨2025, 6, 10⟩⟩

/-- A June-2025 investment transaction. -/
def exTxInvest : Transaction := ⟨"t3", "investment", 200, "cv", ⟨2025, 6, 3⟩⟩

/-- A June-2025 expense transaction whose `category_id` resolves to no
category. -/
def exTxOrphan : Transaction := ⟨"t5", "expense", 5, "cX", ⟨2025, 6, 1⟩⟩

/-- The breakdown entry `getMonthlySummary` builds for `exTxOrphan` when the
category list is empty. -/
def exOrphanEntry : BreakdownEntry := ⟨"cX", "Unknown", "expense", 5, 0, "#3D405B"⟩

/-- A June-2025 expense transaction of category `"c1"`. -/
def exTxExpense : Transaction := ⟨"t1", "expense", 150, "c1", ⟨2025, 6, 10⟩⟩

/-- A database with one category and one transaction referencing it. -/
def exDB : DB := ⟨[exCat], [exTxExpense]⟩

/-- A filter selecting the June-2025 Period and nothing else. -/
def exFilter : TxFilter := ⟨some 6, some 2025, none, none⟩

/-! ### General lemmas about the building blocks -/

lemma mathMin_comm (a b : ℚ) : mathMin a b = mathMin b a := by
  unfold mathMin
  rcases le_total a b with h | h
  · rcases le_or_lt b a with h2 | h2
    · simp [h, h2, le_antisymm h h2]
    · simp [h, not_le.mpr h2]
  · rcases le_or_lt a b with h2 | h2
    · simp [h, h2, le_antisymm h h2]
    · simp [h, not_le.mpr h2]

lemma foldl_add_eq_sum {α : Type} (g : α → ℚ) (l : List α) (a : ℚ) :
    l.foldl (fun sum x => sum + g x) a = a + (l.map g).sum := by
  induction l generalizing a with
  | nil => simp
  | cons t rest ih => simp [ih]; ring

lemma sumAmounts_cons (tx : Transaction) (l : List Transaction) :
    sumAmounts (tx :: l) = tx.amount + sumAmounts l := by
  simp [sumAmounts]

lemma foldl_monthlyStep (l : List Transaction) (p : ℚ × ℚ × ℚ) (g : List (String × ℚ)) :
    l.foldl monthlyStep (p, g) =
      (l.foldl partitionStep p,
       l.foldl (fun acc tx => addToGroup acc tx.category_id tx.amount) g) := by
  induction l generalizing p g with
  | nil => rfl
  | cons t rest ih => simpa [monthlyStep] using ih (partitionStep p t) (addToGroup g t.category_id t.amount)

lemma foldl_partitionStep (l : List Transaction) (p : ℚ × ℚ × ℚ) :
    l.foldl partitionStep p =
      (p.1 + sumAmounts (l.filter (fun tx => tx.type == "income")),
       p.2.1 + sumAmounts (l.filter (fun tx => !(tx.type == "income") && !(tx.type == "investment"))),
       p.2.2 + sumAmounts (l.filter (fun tx => !(tx.type == "income") && tx.type == "investment"))) := by
  induction l generalizing p with
  | nil => simp [sumAmounts]
  | cons t rest ih =>
    rcases p with ⟨a, b, c⟩
    by_cases h1 : t.type = "income"
    · simp only [List.foldl_cons, partitionStep, h1, List.filter_cons]
      simp [ih, sumAmounts_cons, add_assoc]
    · by_cases h2 : t.type = "investment"
      · simp only [List.foldl_cons, partitionStep, h1, h2, List.filter_cons]
        simp [ih, sumAmounts_cons, add_assoc, h1, h2]
      · simp only [List.foldl_cons, partitionStep, List.filter_cons]
        simp [ih, sumAmounts_cons, add_assoc, h1, h2]

lemma filter_investment_eq (l : List Transaction) :
    l.filter (fun tx => !(tx.type == "income") && tx.type == "investment") =
      l.filter (fun tx => tx.type == "investment") := by
  apply List.filter_congr
  intro tx _
  by_cases h : tx.type = "investment" <;> simp [h]

lemma lookup_addToGroup (acc : List (String × ℚ)) (k j : String) (v : ℚ) :
    List.lookup k (addToGroup acc j v) =
      if j = k then some ((List.lookup k acc).getD 0 + v) else List.lookup k acc := by
  induction acc with
  | nil =>
    by_cases h : j = k
    · subst h
      simp [addToGroup, List.lookup_cons]
    · have h' : (k == j) = false := beq_eq_false_iff_ne.mpr (fun e => h e.symm)
      simp [addToGroup, List.lookup_cons, h, h']
  | cons hd tl ih =>
    rcases hd with ⟨i, w⟩
    by_cases hij : i = j
    · subst hij
      by_cases hk : i = k
      · subst hk
        simp [addToGroup, List.lookup_cons]
      · have h' : (k == i) = false := beq_eq_false_iff_ne.mpr (fun e => hk e.symm)
        simp [addToGroup, List.lookup_cons, hk, h']
    · by_cases hk : i = k
      · subst hk
        have hjk : ¬ j = i := fun e => hij e.symm
        simp [addToGroup, hij, List.lookup_cons, hjk]
      · have h' : (k == i) = false := beq_eq_false_iff_ne.mpr (fun e => hk e.symm)
        simp [addToGroup, hij, List.lookup_cons, h', ih]

lemma foldl_group_lookup (l : List Transaction) (acc : List (String × ℚ)) (k : String) :
    (List.lookup k (l.foldl (fun a tx => addToGroup a tx.category_id tx.amount) acc)).getD 0 =
      (List.lookup k acc).getD 0 + sumAmounts (l.filter (fun tx => tx.category_id == k)) := by
  induction l generalizing acc with
  | nil => simp [sumAmounts]
  | cons t rest ih =>
    rw [List.foldl_cons, ih, lookup_addToGroup]
    by_cases h : t.category_id = k
    · simp [h, List.filter_cons, sumAmounts_cons, add_assoc]
    · simp [h, List.filter_cons, beq_iff_eq]

lemma keys_addToGroup (acc : List (String × ℚ)) (k : String) (v : ℚ) :
    (addToGroup acc k v).map Prod.fst =
      if k ∈ acc.map Prod.fst then acc.map Prod.fst else acc.map Prod.fst ++ [k] := by
  induction acc with
  | nil => simp [addToGroup]
  | cons hd tl ih =>
    rcases hd with ⟨j, w⟩
    by_cases h : j = k
    · simp [addToGroup, h]
    · by_cases hmem : k ∈ tl.map Prod.fst
      · simp [addToGroup, h, ih, hmem, Ne.symm h]
      · simp [addToGroup, h, ih, hmem, Ne.symm h]

lemma mem_keys_addToGroup (acc : List (String × ℚ)) (k : String) (v : ℚ) (x : String) :
    x ∈ (addToGroup acc k v).map Prod.fst ↔ x ∈ acc.map Prod.fst ∨ x = k := by
  rw [keys_addToGroup]
  split
  · next h =>
    constructor
    · exact Or.inl
    · rintro (hx | rfl)
      · exact hx
      · exact h
  · simp

lemma nodup_keys_addToGroup (acc : List (String × ℚ)) (k : String) (v : ℚ)
    (h : (acc.map Prod.fst).Nodup) : ((addToGroup acc k v).map Prod.fst).Nodup := by
  rw [keys_addToGroup]
  split
  · exact h
  · next hk =>
    refine List.Nodup.append h (List.nodup_singleton k) ?_
    intro x hx hxk
    rcases List.mem_singleton.mp hxk with rfl
    exact hk hx

lemma nodup_keys_groupFold (l : List Transaction) (acc : List (String × ℚ))
    (h : (acc.map Prod.fst).Nodup) :
    ((l.foldl (fun a tx => addToGroup a tx.category_id tx.amount) acc).map Prod.fst).Nodup := by
  induction l generalizing acc with
  | nil => exact h
  | cons t rest ih => exact ih _ (nodup_keys_addToGroup _ _ _ h)

lemma mem_keys_groupFold (l : List Transaction) (acc : List (String × ℚ)) (x : String) :
    x ∈ ((l.foldl (fun a tx => addToGroup a tx.category_id tx.amount) acc).map Prod.fst) ↔
      x ∈ acc.map Prod.fst ∨ x ∈ l.map (fun tx => tx.category_id) := by
  induction l generalizing acc with
  | nil => simp
  | cons t rest ih =>
    rw [List.foldl_cons, ih, mem_keys_addToGroup]
    simp
    tauto

lemma lookup_eq_of_mem {l : List (String × ℚ)} (h : (l.map Prod.fst).Nodup) {k : String} {v : ℚ}
    (hm : (k, v) ∈ l) : List.lookup k l = some v := by
  induction l with
  | nil => cases hm
  | cons hd tl ih =>
    rcases hd with ⟨j, w⟩
    rcases List.mem_cons.mp hm with he | ht
    · rcases Prod.mk.injEq .. ▸ he with ⟨rfl, rfl⟩
      simp [List.lookup]
    · have hj : ¬ (k == j) = true := by
        simp only [beq_iff_eq]
        rintro rfl
        have hk : k ∈ tl.map Prod.fst := List.mem_map.mpr ⟨(k, v), ht, rfl⟩
        exact (List.nodup_cons.mp h).1 hk
      simp only [List.lookup, hj, if_neg]
      exact ih (List.nodup_cons.mp h).2 ht

lemma mem_groupFold_total (l : List Transaction) {k : String} {v : ℚ}
    (hm : (k, v) ∈ l.foldl (fun a tx => addToGroup a tx.category_id tx.amount) []) :
    v = sumAmounts (l.filter (fun tx => tx.category_id == k)) := by
  have hn := nodup_keys_groupFold l [] (by simp)
  have hl := lookup_eq_of_mem hn hm
  have h2 := foldl_group_lookup l [] k
  rw [hl] at h2
  simpa using h2

lemma dateLeB_trans (a b c : Date) (hab : dateLeB a b = true) (hbc : dateLeB b c = true) :
    dateLeB a c = true := by
  rcases a with ⟨ay, am, ad⟩
  rcases b with ⟨yy, ym, yd⟩
  rcases c with ⟨cy, cm, cd⟩
  simp only [dateLeB, Bool.or_eq_true, Bool.and_eq_true, decide_eq_true_eq, beq_iff_eq] at *
  omega

lemma dateLeB_total (a b : Date) : (dateLeB a b || dateLeB b a) = true := by
  rcases a with ⟨ay, am, ad⟩
  rcases b with ⟨yy, ym, yd⟩
  simp only [dateLeB, Bool.or_eq_true, Bool.and_eq_true, decide_eq_true_eq, beq_iff_eq]
  omega

/-- The three totals of `getMonthlySummary` account for exactly the Period's
transactions, split by type with the non-income/non-investment fallback. -/
lemma getMonthlySummary_totals (txns : List Transaction) (cats : List Category)
    (month year : Nat) :
    (getMonthlySummary txns cats month year).total_income =
      sumAmounts ((txns.filter (fun tx => inPeriod month year tx.date)).filter
        (fun tx => tx.type == "income"))
    ∧ (getMonthlySummary txns cats month year).total_expenses =
      sumAmounts ((txns.filter (fun tx => inPeriod month year tx.date)).filter
        (fun tx => !(tx.type == "income") && !(tx.type == "investment")))
    ∧ (getMonthlySummary txns cats month year).total_investments =
      sumAmounts ((txns.filter (fun tx => inPeriod month year tx.date)).filter
        (fun tx => tx.type == "investment")) := by
  have h := foldl_monthlyStep (txns.filter (fun tx => inPeriod month year tx.date)) (0, 0, 0) []
  have h2 := foldl_partitionStep (txns.filter (fun tx => inPeriod month year tx.date)) (0, 0, 0)
  refine ⟨?_, ?_, ?_⟩
  · simp only [getMonthlySummary]
    rw [h, h2]
    simp only [zero_add]
  · simp only [getMonthlySummary]
    rw [h, h2]
    simp only [zero_add]
  · simp only [getMonthlySummary]
    rw [h, h2, filter_investment_eq]
    simp only [zero_add]

/-- The `category_breakdown` of `getMonthlySummary` is the mapped grouping
of the Period's transactions. -/
lemma getMonthlySummary_breakdown (txns : List Transaction) (cats : List Category)
    (month year : Nat) :
    (getMonthlySummary txns cats month year).category_breakdown =
      ((txns.filter (fun tx => inPeriod month year tx.date)).foldl
        (fun a tx => addToGroup a tx.category_id tx.amount) []).map (mkBreakdownEntry cats) := by
  have h := foldl_monthlyStep (txns.filter (fun tx => inPeriod month year tx.date)) (0, 0, 0) []
  simp only [getMonthlySummary]
  rw [h]

lemma mkBreakdownEntry_category_id (cats : List Category) (p : String × ℚ) :
    (mkBreakdownEntry cats p).category_id = p.1 := by
  unfold mkBreakdownEntry
  split <;> rfl

lemma mkBreakdownEntry_total (cats : List Category) (p : String × ℚ) :
    (mkBreakdownEntry cats p).total = p.2 := by
  unfold mkBreakdownEntry
  split <;> rfl

lemma filter_pred_rearrange (txns : List Transaction) (k : String) (month year : Nat) :
    (txns.filter (fun tx => tx.type == "expense" && inPeriod month year tx.date)).filter
        (fun tx => tx.category_id == k) =
      txns.filter (fun tx =>
        tx.type == "expense" && tx.category_id == k && inPeriod month year tx.date) := by
  rw [List.filter_filter]
  apply List.filter_congr
  intro tx _
  cases h1 : (tx.type == "expense") <;> cases h2 : (tx.category_id == k) <;>
    cases h3 : inPeriod month year tx.date <;> simp [h1, h2, h3]

lemma filter_swap {α : Type} (l : List α) (p q : α → Bool) :
    (l.filter q).filter p = l.filter (fun a => q a && p a) := by
  rw [List.filter_filter]
  exact List.filter_congr (fun a _ => Bool.and_comm (p a) (q a))

/-! ### The claims -/

/-- **C1.** For every category list, transaction list and `(month, year)`,
`getBudgetStatus` returns exactly one entry per category of type
`"expense"` (regardless of its `budget_limit`, and no entry for any other
category); for each such category `spent` is the sum of the amounts of the
`"expense"`-typed transactions of that category dated in the Period,
`remaining = max(0, budget_limit - spent)`,
`percentage = min(100, spent / budget_limit * 100)` when `budget_limit > 0`
and `0` otherwise, and `over_budget` holds iff `budget_limit > 0` and
`spent > budget_limit`. -/
theorem budgetStatus_entries_spec (txns : List Transaction) (cats : List Category)
    (month year : Nat) :
    getBudgetStatus txns cats month year =
      (cats.filter (fun c => c.type == "expense")).map (fun cat =>
        let spent := sumAmounts (txns.filter (fun tx =>
          tx.type == "expense" && tx.category_id == cat.id && inPeriod month year tx.date))
        { category_id := cat.id
          category_name := cat.name
          budget_limit := cat.budget_limit
          spent := spent
          remaining := mathMax 0 (cat.budget_limit - spent)
          percentage :=
            if 0 < cat.budget_limit then mathMin 100 (spent / cat.budget_limit * 100) else 0
          over_budget := decide (0 < cat.budget_limit ∧ cat.budget_limit < spent)
          color := cat.color }) := by
  unfold getBudgetStatus
  apply List.map_congr_left
  intro cat _
  have hspent : (List.lookup cat.id
      ((txns.filter (fun tx => tx.type == "expense" && inPeriod month year tx.date)).foldl
        (fun acc tx => addToGroup acc tx.category_id tx.amount) [])).getD 0 =
      sumAmounts (txns.filter (fun tx =>
        tx.type == "expense" && tx.category_id == cat.id && inPeriod month year tx.date)) := by
    rw [foldl_group_lookup, filter_pred_rearrange]
    simp
  rw [hspent]
  simp only [BudgetStatusEntry.mk.injEq, true_and, and_true]
  refine ⟨?_, ?_⟩
  · by_cases hl : 0 < cat.budget_limit
    · simp [hl, mathMin_comm]
    · simp [hl, mathMin]
  · exact (Bool.decide_and _ _).symm

/-- **C2.** For every transaction list, category list and `(month, year)`,
the summary satisfies `balance = total_income - total_expenses` exactly,
and `total_investments` never contributes to `balance`: adding an
investment-typed transaction leaves `balance` unchanged. -/
theorem monthlySummary_balance_spec (txns : List Transaction) (cats : List Category)
    (month year : Nat) (tx : Transaction) (ht : tx.type = "investment") :
    (getMonthlySummary txns cats month year).balance =
      (getMonthlySummary txns cats month year).total_income -
        (getMonthlySummary txns cats month year).total_expenses
    ∧ (getMonthlySummary (tx :: txns) cats month year).balance =
      (getMonthlySummary txns cats month year).balance := by
  have hbal : ∀ (t : List Transaction),
      (getMonthlySummary t cats month year).balance =
        (getMonthlySummary t cats month year).total_income -
          (getMonthlySummary t cats month year).total_expenses := fun t => rfl
  refine ⟨hbal txns, ?_⟩
  obtain ⟨hi, he, _⟩ := getMonthlySummary_totals txns cats month year
  obtain ⟨hi2, he2, _⟩ := getMonthlySummary_totals (tx :: txns) cats month year
  rw [hbal (tx :: txns), hbal txns, hi, he, hi2, he2]
  by_cases h : inPeriod month year tx.date
  · simp [List.filter_cons, h, ht]
  · simp [List.filter_cons, h]

/-- **C3.** In `getMonthlySummary`, every transaction whose date falls in
the `(month, year)` Period contributes its amount to exactly one of the
three totals, decided by its type: `total_income` for `"income"`,
`total_investments` for `"investment"`, and `total_expenses` in every
other case, unrecognized types included; transactions outside the
Period contribute to none of them. -/
theorem monthlySummary_partition_spec (txns : List Transaction) (cats : List Category)
    (month year : Nat) :
    (getMonthlySummary txns cats month year).total_income =
      sumAmounts (txns.filter (fun tx =>
        inPeriod month year tx.date && tx.type == "income"))
    ∧ (getMonthlySummary txns cats month year).total_investments =
      sumAmounts (txns.filter (fun tx =>
        inPeriod month year tx.date && tx.type == "investment"))
    ∧ (getMonthlySummary txns cats month year).total_expenses =
      sumAmounts (txns.filter (fun tx =>
        inPeriod month year tx.date && (!(tx.type == "income") && !(tx.type == "investment")))) := by
  obtain ⟨hi, he, hv⟩ := getMonthlySummary_totals txns cats month year
  rw [filter_swap] at hi he hv
  exact ⟨hi, hv, he⟩

/-- **C4.** For every transaction list and year, `getYearlySummary` returns
`monthly_data` with exactly 12 entries in month order 1..12, its three
totals each equal the sum of the corresponding field over the 12 entries,
and a month with no transactions yields the all-zero entry
`{income = 0, expenses = 0, investments = 0, balance = 0}` rather than
being omitted. -/
theorem yearlySummary_shape_spec (txns : List Transaction) (year : Nat) :
    ((getYearlySummary txns year).monthly_data.length = 12
     ∧ (getYearlySummary txns year).monthly_data.map (fun md => md.month) =
        [1, 2, 3, 4, 5, 6, 7, 8, 9, 10, 11, 12]
     ∧ (getYearlySummary txns year).total_income =
        ((getYearlySummary txns year).monthly_data.map (fun md => md.income)).sum
     ∧ (getYearlySummary txns year).total_expenses =
        ((getYearlySummary txns year).monthly_data.map (fun md => md.expenses)).sum
     ∧ (getYearlySummary txns year).total_investments =
        ((getYearlySummary txns year).monthly_data.map (fun md => md.investments)).sum)
    ∧ (∀ M : Nat, 1 ≤ M → M ≤ 12 →
        txns.filter (fun tx => inPeriod M year tx.date) = [] →
        (⟨M, 0, 0, 0, 0⟩ : MonthData) ∈ (getYearlySummary txns year).monthly_data) := by
  constructor
  · refine ⟨by simp [getYearlySummary], ?_, ?_, ?_, ?_⟩
    · rfl
    · simp only [getYearlySummary]
      rw [foldl_add_eq_sum]
      simp
    · simp only [getYearlySummary]
      rw [foldl_add_eq_sum]
      simp
    · simp only [getYearlySummary]
      rw [foldl_add_eq_sum]
      simp
  · intro M h1 h2 hemp
    have hM : M - 1 < 12 := by omega
    simp only [getYearlySummary]
    refine List.mem_map.mpr ⟨M - 1, List.mem_range.mpr hM, ?_⟩
    have hM1 : M - 1 + 1 = M := by omega
    rw [hM1]
    simp [monthData, hemp]

/-- **C5.** `getMonthlySummary` is a total function: its
`category_breakdown` has exactly one entry per distinct `category_id`
occurring among the Period's transactions, each entry's `total` is the sum
of those transactions' amounts, and when a `category_id` resolves to no
category the entry degrades gracefully to the synthetic placeholder
(`category_name = "Unknown"`, `type = "expense"`, `budget_limit = 0`,
default color `#3D405B`) instead of failing. -/
theorem monthlySummary_breakdown_graceful (txns : List Transaction) (cats : List Category)
    (month year : Nat) :
    (((getMonthlySummary txns cats month year).category_breakdown.map
        (fun e => e.category_id)).Nodup
     ∧ ∀ cid : String,
        (cid ∈ (getMonthlySummary txns cats month year).category_breakdown.map
          (fun e => e.category_id)) ↔
        (cid ∈ (txns.filter (fun tx => inPeriod month year tx.date)).map
          (fun tx => tx.category_id)))
    ∧ (∀ e, e ∈ (getMonthlySummary txns cats month year).category_breakdown →
        (e.total = sumAmounts ((txns.filter (fun tx => inPeriod month year tx.date)).filter
            (fun tx => tx.category_id == e.category_id))
         ∧ (catLookup cats e.category_id = none →
             e.category_name = "Unknown" ∧ e.type = "expense"
               ∧ e.budget_limit = 0 ∧ e.color = "#3D405B"))) := by
  rw [getMonthlySummary_breakdown]
  have hkeys : (((txns.filter (fun tx => inPeriod month year tx.date)).foldl
        (fun a tx => addToGroup a tx.category_id tx.amount) []).map
          (mkBreakdownEntry cats)).map (fun e => e.category_id) =
      ((txns.filter (fun tx => inPeriod month year tx.date)).foldl
        (fun a tx => addToGroup a tx.category_id tx.amount) []).map Prod.fst := by
    rw [List.map_map]
    exact List.map_congr_left (fun p _ => mkBreakdownEntry_category_id cats p)
  refine ⟨⟨?_, ?_⟩, ?_⟩
  · rw [hkeys]
    exact nodup_keys_groupFold _ [] (by simp)
  · intro cid
    rw [hkeys, mem_keys_groupFold]
    simp
  · intro e he
    obtain ⟨p, hp, rfl⟩ := List.mem_map.mp he
    constructor
    · rw [mkBreakdownEntry_total, mkBreakdownEntry_category_id]
      exact mem_groupFold_total _ hp
    · intro hnone
      rw [mkBreakdownEntry_category_id] at hnone
      simp [mkBreakdownEntry, hnone]

/-- **C6.** `deleteCategory id` fails with the has-dependents error whenever
at least one transaction references `id` — leaving both tables exactly as
they were — and deletes the category (only) when no transaction
references `id`. -/
theorem deleteCategory_has_dependents (db : DB) (id : String) :
    ((∃ tx ∈ db.transactions, tx.category_id = id) →
      deleteCategory db id = (db, some hasDependentsMsg))
    ∧ ((∀ tx ∈ db.transactions, tx.category_id ≠ id) →
      deleteCategory db id =
        (⟨db.categories.filter (fun c => !(c.id == id)), db.transactions⟩, none)) := by
  constructor
  · rintro ⟨tx, htx, hcid⟩
    have hmem : tx ∈ db.transactions.filter (fun t => t.category_id == id) :=
      List.mem_filter.mpr ⟨htx, by simp [hcid]⟩
    have hpos : 0 < dependentCount db id :=
      List.length_pos.mpr (List.ne_nil_of_mem hmem)
    simp [deleteCategory, deleteCategoryCore, hpos]
  · intro hnone
    have hnil : db.transactions.filter (fun t => t.category_id == id) = [] :=
      List.filter_eq_nil_iff.mpr (fun t ht => by simpa using hnone t ht)
    have hzero : dependentCount db id = 0 := by
      simp [dependentCount, hnil]
    simp [deleteCategory, deleteCategoryCore, hzero]

/-- **C10.** The has-dependents guard in `deleteCategory` fires exactly when
the dependent-count query actually yields a count greater than zero; when
the query fails or carries no count, the guard does not fire and the
delete of the category is attempted anyway. -/
theorem deleteCategory_guard_only_on_positive_count (countResult : Option Nat)
    (db : DB) (id : String) :
    ((deleteCategoryCore countResult db id).2 = some hasDependentsMsg ↔
      ∃ c, countResult = some c ∧ 0 < c)
    ∧ (countResult = none →
        deleteCategoryCore countResult db id =
          (⟨db.categories.filter (fun c => !(c.id == id)), db.transactions⟩, none)) := by
  cases countResult with
  | none => simp [deleteCategoryCore]
  | some c =>
    by_cases hc : 0 < c <;> simp [deleteCategoryCore, hc]

/-- **C7.** `getTransactions` always returns at most 1000 rows ordered by
date descending (and is the full filtered set whenever that set fits the
cap), and when the filter supplies both `month` and `year` every returned
transaction is dated in `[first-of-month, first-of-next-month)`, with
month 12 of year `y` ending at January 1 of year `y + 1`. -/
theorem getTransactions_period_filter_spec (db : List Transaction) (f : TxFilter) :
    ((getTransactions db f).length ≤ 1000
     ∧ List.Pairwise (fun a b => dateLeB b.date a.date = true) (getTransactions db f)
     ∧ ((db.filter (matchesFilter f)).length ≤ 1000 →
        (getTransactions db f).Perm (db.filter (matchesFilter f))))
    ∧ (∀ m y : Nat, f.month = some m → f.year = some y →
        ∀ tx ∈ getTransactions db f,
          dateLeB ⟨y, m, 1⟩ tx.date = true
          ∧ dateLtB tx.date (if m = 12 then ⟨y + 1, 1, 1⟩ else ⟨y, m + 1, 1⟩) = true) := by
  have hperm := List.mergeSort_perm (db.filter (matchesFilter f))
    (fun a b => dateLeB b.date a.date)
  refine ⟨⟨?_, ?_, ?_⟩, ?_⟩
  · simp only [getTransactions, List.length_take]
    omega
  · have hsorted := @List.sorted_mergeSort Transaction
      (fun a b => dateLeB b.date a.date)
      (fun a b c hab hbc => dateLeB_trans c.date b.date a.date hbc hab)
      (fun a b => dateLeB_total b.date a.date)
      (db.filter (matchesFilter f))
    exact List.Pairwise.sublist (List.take_sublist _ _) hsorted
  · intro hlen
    have hlen2 : (sortByDateDesc (db.filter (matchesFilter f))).length ≤ 1000 := by
      rw [sortByDateDesc, hperm.length_eq]
      exact hlen
    rw [getTransactions, List.take_of_length_le hlen2]
    exact hperm
  · intro m y hm hy tx htx
    have h1 : tx ∈ sortByDateDesc (db.filter (matchesFilter f)) :=
      List.mem_of_mem_take htx
    have h2 : tx ∈ db.filter (matchesFilter f) := hperm.mem_iff.mp h1
    have h3 : matchesFilter f tx = true := (List.mem_filter.mp h2).2
    rw [matchesFilter, hm, hy] at h3
    simp only [Bool.and_eq_true] at h3
    have h4 : inPeriod m y tx.date = true := h3.1.1
    rw [inPeriod, Bool.and_eq_true] at h4
    refine ⟨h4.1, ?_⟩
    have h5 := h4.2
    rw [periodEndDate] at h5
    by_cases h12 : m = 12
    · simpa [h12] using h5
    · simpa [h12] using h5

/-- **C8.** When exactly one of `month` and `year` is supplied, no date
restriction is applied at all: the result equals that of a call with no
period filter (so the `type`/`category_id` filters, the ordering, and the
cap are those of the period-free call). -/
theorem getTransactions_partial_period_ignored (db : List Transaction) (f : TxFilter)
    (h : f.month = none ∨ f.year = none) :
    getTransactions db f =
      getTransactions db ⟨none, none, f.type, f.category_id⟩ := by
  have hpred : ∀ tx, matchesFilter f tx =
      matchesFilter ⟨none, none, f.type, f.category_id⟩ tx := by
    intro tx
    rcases h with hm | hy
    · simp [matchesFilter, hm]
    · cases hfm : f.month <;> simp [matchesFilter, hy, hfm]
  simp only [getTransactions, sortByDateDesc]
  rw [List.filter_congr (fun tx _ => hpred tx)]

/-- **C9.** A Period transaction whose type is none of `income`,
`investment`, `expense` is counted in `total_expenses` and in its
category's breakdown total, but contributes to no `getBudgetStatus`
entry's `spent` (that function sums only transactions typed exactly
`"expense"`); consequently `total_expenses` can be strictly greater than
the sum of `spent` over all budget-status entries, as the concrete sample
shows. -/
theorem unrecognized_type_counted_as_expense (txns : List Transaction)
    (cats : List Category) (month year : Nat) (tx : Transaction)
    (hp : inPeriod month year tx.date = true)
    (h1 : tx.type ≠ "income") (h2 : tx.type ≠ "investment") (h3 : tx.type ≠ "expense") :
    (getMonthlySummary (tx :: txns) cats month year).total_expenses =
      tx.amount + (getMonthlySummary txns cats month year).total_expenses
    ∧ (∀ e, e ∈ (getMonthlySummary (tx :: txns) cats month year).category_breakdown →
        e.category_id = tx.category_id →
        e.total = tx.amount +
          sumAmounts ((txns.filter (fun t => inPeriod month year t.date)).filter
            (fun t => t.category_id == tx.category_id)))
    ∧ getBudgetStatus (tx :: txns) cats month year = getBudgetStatus txns cats month year
    ∧ (getMonthlySummary [exTxOther] [exCat] 6 2025).total_expenses >
        sumSpent (getBudgetStatus [exTxOther] [exCat] 6 2025) := by
  refine ⟨?_, ?_, ?_, ?_⟩
  · obtain ⟨_, he, _⟩ := getMonthlySummary_totals txns cats month year
    obtain ⟨_, he2, _⟩ := getMonthlySummary_totals (tx :: txns) cats month year
    rw [he2, he]
    simp [List.filter_cons, hp, h1, h2, sumAmounts_cons]
  · intro e he_mem hcid
    rw [getMonthlySummary_breakdown] at he_mem
    obtain ⟨p, hp_mem, rfl⟩ := List.mem_map.mp he_mem
    rw [mkBreakdownEntry_category_id] at hcid
    rw [mkBreakdownEntry_total]
    have ht := mem_groupFold_total _ hp_mem
    rw [hcid] at ht
    rw [ht]
    simp [List.filter_cons, hp, sumAmounts_cons]
  · simp [getBudgetStatus, List.filter_cons, h3]
  · norm_num [getMonthlySummary, getBudgetStatus, monthlyStep, partitionStep, addToGroup,
      inPeriod, periodStartDate, periodEndDate, dateLeB, dateLtB, exTxOther, exCat,
      sumSpent, sumAmounts, mkBreakdownEntry, catLookup, List.filter_cons, List.lookup]
    decide

/-! ### Concrete witnesses -/

/-- Witness for C2 at an investment transaction and an empty database. -/
theorem monthlySummary_balance_spec_witness :
    exTxInvest.type = "investment"
    ∧ ((getMonthlySummary [] [] 6 2025).balance =
        (getMonthlySummary [] [] 6 2025).total_income -
          (getMonthlySummary [] [] 6 2025).total_expenses
      ∧ (getMonthlySummary [exTxInvest] [] 6 2025).balance =
        (getMonthlySummary [] [] 6 2025).balance) :=
  ⟨rfl, monthlySummary_balance_spec [] [] 6 2025 exTxInvest rfl⟩

/-- Witness for C4: January of an empty year is present as the all-zero
entry. -/
theorem yearlySummary_shape_spec_witness :
    1 ≤ 1 ∧ 1 ≤ 12
    ∧ List.filter (fun tx => inPeriod 1 2025 tx.date) ([] : List Transaction) = []
    ∧ (⟨1, 0, 0, 0, 0⟩ : MonthData) ∈ (getYearlySummary [] 2025).monthly_data :=
  ⟨by decide, by decide, rfl,
    (yearlySummary_shape_spec [] 2025).2 1 (by decide) (by decide) rfl⟩

/-- Witness for C5 at a transaction whose category does not resolve. -/
theorem monthlySummary_breakdown_graceful_witness :
    exOrphanEntry ∈ (getMonthlySummary [exTxOrphan] [] 6 2025).category_breakdown
    ∧ catLookup [] exOrphanEntry.category_id = none
    ∧ (exOrphanEntry.total =
        sumAmounts ((List.filter (fun tx => inPeriod 6 2025 tx.date) [exTxOrphan]).filter
          (fun tx => tx.category_id == exOrphanEntry.category_id))
      ∧ (exOrphanEntry.category_name = "Unknown" ∧ exOrphanEntry.type = "expense"
          ∧ exOrphanEntry.budget_limit = 0 ∧ exOrphanEntry.color = "#3D405B")) :=
  ⟨by decide, rfl,
    ((monthlySummary_breakdown_graceful [exTxOrphan] [] 6 2025).2 exOrphanEntry
        (by decide)).1,
    ((monthlySummary_breakdown_graceful [exTxOrphan] [] 6 2025).2 exOrphanEntry
        (by decide)).2 rfl⟩

/-- Witness for C6: Scenario C on the sample database (delete blocked, state
unchanged) and the dependent-free delete on a database with no
transactions. -/
theorem deleteCategory_has_dependents_witness :
    (∃ tx ∈ exDB.transactions, tx.category_id = "c1")
    ∧ deleteCategory exDB "c1" = (exDB, some hasDependentsMsg)
    ∧ (∀ tx ∈ (⟨[exCat], []⟩ : DB).transactions, tx.category_id ≠ "c1")
    ∧ deleteCategory ⟨[exCat], []⟩ "c1" =
        (⟨List.filter (fun c => !(c.id == "c1")) [exCat], []⟩, none) :=
  ⟨by decide,
    (deleteCategory_has_dependents exDB "c1").1 (by decide),
    by decide,
    (deleteCategory_has_dependents ⟨[exCat], []⟩ "c1").2 (by decide)⟩

/-- Witness for C7 at the June-2025 filter and a single matching
transaction. -/
theorem getTransactions_period_filter_spec_witness :
    exFilter.month = some 6 ∧ exFilter.year = some 2025
    ∧ (List.filter (matchesFilter exFilter) [exTxExpense]).length ≤ 1000
    ∧ (getTransactions [exTxExpense] exFilter).Perm
        (List.filter (matchesFilter exFilter) [exTxExpense])
    ∧ exTxExpense ∈ getTransactions [exTxExpense] exFilter
    ∧ (dateLeB ⟨2025, 6, 1⟩ exTxExpense.date = true
      ∧ dateLtB exTxExpense.date
          (if 6 = 12 then ⟨2025 + 1, 1, 1⟩ else ⟨2025, 6 + 1, 1⟩) = true) :=
  ⟨rfl, rfl, by decide,
    (getTransactions_period_filter_spec [exTxExpense] exFilter).1.2.2 (by decide),
    by simp [getTransactions, sortByDateDesc, matchesFilter, exFilter, exTxExpense,
      inPeriod, periodStartDate, periodEndDate, dateLeB, dateLtB, List.mergeSort_singleton],
    (getTransactions_period_filter_spec [exTxExpense] exFilter).2 6 2025 rfl rfl
      exTxExpense
      (by simp [getTransactions, sortByDateDesc, matchesFilter, exFilter, exTxExpense,
        inPeriod, periodStartDate, periodEndDate, dateLeB, dateLtB,
        List.mergeSort_singleton])⟩

/-- Witness for C8: a filter carrying a month but no year is the same as no
period filter at all. -/
theorem getTransactions_partial_period_ignored_witness :
    ((⟨some 6, none, none, none⟩ : TxFilter).month = none
      ∨ (⟨some 6, none, none, none⟩ : TxFilter).year = none)
    ∧ getTransactions [exTxExpense] ⟨some 6, none, none, none⟩ =
        getTransactions [exTxExpense] ⟨none, none, none, none⟩ :=
  ⟨Or.inr rfl,
    getTransactions_partial_period_ignored [exTxExpense] ⟨some 6, none, none, none⟩
      (Or.inr rfl)⟩

/-- Witness for C9 at the unrecognized-type sample transaction: the
budget-status output ignores it. -/
theorem unrecognized_type_counted_as_expense_witness :
    inPeriod 6 2025 exTxOther.date = true
    ∧ exTxOther.type ≠ "income" ∧ exTxOther.type ≠ "investment"
    ∧ exTxOther.type ≠ "expense"
    ∧ getBudgetStatus [exTxOther] [exCat] 6 2025 = getBudgetStatus [] [exCat] 6 2025 :=
  ⟨by decide, by decide, by decide, by decide,
    (unrecognized_type_counted_as_expense [] [exCat] 6 2025 exTxOther (by decide)
        (by decide) (by decide) (by decide)).2.2.1⟩

/-- Witness for C10: a count-less response lets the delete happen on the
sample database even though a dependent transaction exists. -/
theorem deleteCategory_guard_witness :
    (none : Option Nat) = none
    ∧ deleteCategoryCore none exDB "c1" =
        (⟨List.filter (fun c => !(c.id == "c1")) exDB.categories, exDB.transactions⟩, none) :=
  ⟨rfl, (deleteCategory_guard_only_on_positive_count none exDB "c1").2 rfl⟩

end BudgetApp
